import Mathlib

/-!
Shallow embedding of the signaling server in `src/server/server.js`
(the full handler set: `handleClientMessage`, `handleCreateRoom`,
`handleJoinRoom`, `handleLeaveRoom`, `handleOffer`, `handleAnswer`,
`handleIceCandidate`, `handleClientDisconnection`, `broadcastToRoom`,
`sendToClient`).

The registry `rooms` is a JavaScript `Map` from room id to a room whose
`participants` is a `Map` from client id to the client's socket; we model
it as an insertion-ordered association list from room id to the list of
participant ids (a `Map`'s keys in insertion order).  Each WebSocket `ws`
is modelled as a `Conn` carrying its `id`, its `roomId` field
(`Option String`, `none` for `null`/unset) and whether its `readyState`
is `OPEN`.  Sending a message over a socket is modelled as an event pair
`(recipient id, message)`; every handler returns the mutated state
together with the list of emitted events, in emission order.

JavaScript truthiness on the string fields that the code guards with
`!roomId` is modelled by treating the empty string as falsy: a missing
`roomId` and `roomId: ""` behave identically under `!roomId`, so a plain
`String` field with `""` for "missing or empty" is faithful; where the
code distinguishes `null`/`undefined` from a present string
(`ws.roomId`, `message.roomId || ws.roomId` in `handleLeaveRoom`) we use
`Option String` and spell out the `||` / `!` truthiness.
-/

namespace VideoCall

/-- One WebSocket client as the server sees it: `ws.id`, `ws.roomId`
(`none` for `null`/unset) and whether `ws.readyState === WebSocket.OPEN`. -/
structure Conn where
  id : String
  room : Option String
  isOpen : Bool
deriving DecidableEq, Repr

/-- The server's mutable state: the `rooms` registry (room id ↦ participant
ids, in `Map` insertion order) and the set of client sockets. -/
structure ServerState where
  rooms : List (String × List String)
  conns : List Conn
deriving DecidableEq, Repr

/-- Server → client message envelopes, as built by the handlers.  The
opaque relayed payloads (`offer`, `answer`, `candidate`) are modelled as
uninterpreted strings. -/
inductive ServerMsg where
  | connected (clientId : String)
  | roomCreated (roomId : String) (participants : List String)
  | roomJoined (roomId : String) (participants : List String)
  | userJoined (userId : String) (roomId : String) (participants : List String)
  | userLeft (userId : String) (roomId : String) (participants : List String)
  | offer (payload : String) (fromId : String) (roomId : String)
  | answer (payload : String) (fromId : String) (roomId : String)
  | iceCandidate (payload : String) (fromId : String) (roomId : String)
  | pong
  | error (message : String)
deriving DecidableEq, Repr

/-- Client → server messages dispatched by `handleClientMessage`.  For
`create-room`/`join-room`/relay messages the code only tests `!roomId`,
so `""` stands for both a missing and an empty `roomId`; `leave-room`
distinguishes an absent `roomId` (`none`) because of
`message.roomId || ws.roomId`. -/
inductive ClientMsg where
  | createRoom (roomId : String)
  | joinRoom (roomId : String)
  | leaveRoom (roomId : Option String)
  | offer (roomId : String) (payload : String)
  | answer (roomId : String) (payload : String)
  | iceCandidate (roomId : String) (payload : String)
  | ping
  | unknown (t : String)
deriving DecidableEq, Repr

/-- Pairs of recipient id and message, in emission order. -/
abbrev Events := List (String × ServerMsg)

/-- Model of `rooms.get(rid)` / `rooms.has(rid)` on the association list. -/
def lookupRoom : List (String × List String) → String → Option (List String)
  | [], _ => none
  | (k, v) :: rest, rid => if k = rid then some v else lookupRoom rest rid

/-- Model of overwriting the participants of an existing key `rid`
(`Map.set` on a present key updates in place, keeping order). -/
def setRoomMembers : List (String × List String) → String → List String →
    List (String × List String)
  | [], _, _ => []
  | (k, v) :: rest, rid, ms =>
      (if k = rid then (k, ms) else (k, v)) :: setRoomMembers rest rid ms

/-- Model of `rooms.delete(rid)`. -/
def deleteRoom : List (String × List String) → String → List (String × List String)
  | [], _ => []
  | (k, v) :: rest, rid =>
      if k = rid then deleteRoom rest rid else (k, v) :: deleteRoom rest rid

/-- Dereference a stored client id to its socket. -/
def getConn : List Conn → String → Option Conn
  | [], _ => none
  | c :: rest, cid => if c.id = cid then some c else getConn rest cid

/-- Mutate the socket object with id `cid` in place. -/
def updateConn : List Conn → String → (Conn → Conn) → List Conn
  | [], _, _ => []
  | c :: rest, cid, f =>
      (if c.id = cid then f c else c) :: updateConn rest cid f

/-- Model of `sendToClient(ws, message)`: sends only if
`ws.readyState === WebSocket.OPEN`, else silently drops. -/
def sendToClient (s : ServerState) (cid : String) (m : ServerMsg) : Events :=
  match getConn s.conns cid with
  | none => []
  | some c => if c.isOpen then [(cid, m)] else []

/-- Model of `broadcastToRoom(roomId, sender, message)`: if the room exists, sends
`message` to every participant whose socket is not the sender's and is
open; otherwise does nothing. -/
def broadcastToRoom (s : ServerState) (rid : String) (senderId : String)
    (m : ServerMsg) : Events :=
  match lookupRoom s.rooms rid with
  | none => []
  | some ms => ms.filterMap fun mid =>
      match getConn s.conns mid with
      | none => none
      | some c =>
          if mid = senderId then none
          else if c.isOpen then some (mid, m) else none

/-- Model of `handleCreateRoom(ws, message)`. -/
def handleCreateRoom (s : ServerState) (cid : String) (rid : String) :
    ServerState × Events :=
  if rid = "" then
    (s, sendToClient s cid (.error "Room ID is required"))
  else
    match lookupRoom s.rooms rid with
    | some _ => (s, sendToClient s cid (.error "Room already exists"))
    | none =>
        let s1 : ServerState :=
          { rooms := s.rooms ++ [(rid, [cid])],
            conns := updateConn s.conns cid fun c => { c with room := some rid } }
        (s1, sendToClient s1 cid (.roomCreated rid [cid]))

/-- Model of `handleJoinRoom(ws, message)`. -/
def handleJoinRoom (s : ServerState) (cid : String) (rid : String) :
    ServerState × Events :=
  if rid = "" then
    (s, sendToClient s cid (.error "Room ID is required"))
  else
    match lookupRoom s.rooms rid with
    | none => (s, sendToClient s cid (.error "Room does not exist"))
    | some ms =>
        let ms1 := if cid ∈ ms then ms else ms ++ [cid]
        let s1 : ServerState :=
          { rooms := setRoomMembers s.rooms rid ms1,
            conns := updateConn s.conns cid fun c => { c with room := some rid } }
        (s1, sendToClient s1 cid (.roomJoined rid ms1) ++
              broadcastToRoom s1 rid cid (.userJoined cid rid ms1))

/-- Model of `message.roomId || ws.roomId` followed by the `!roomId` test: the result is
`none` exactly when the `||`-chain yields a falsy value. -/
def resolveLeaveRoom (mrid : Option String) (wsRoom : Option String) :
    Option String :=
  match mrid with
  | some r => if r = "" then (match wsRoom with
      | some w => if w = "" then none else some w
      | none => none) else some r
  | none => match wsRoom with
      | some w => if w = "" then none else some w
      | none => none

/-- Model of `handleLeaveRoom(ws, message)`: resolves the room id, returns silently
if it is falsy or unknown; otherwise deletes the sender's id from the
participants, broadcasts `user-left` with the remaining participants,
deletes the room if it became empty, and clears `ws.roomId`. -/
def handleLeaveRoom (s : ServerState) (cid : String) (mrid : Option String) :
    ServerState × Events :=
  match resolveLeaveRoom mrid ((getConn s.conns cid).bind Conn.room) with
  | none => (s, [])
  | some rid =>
      match lookupRoom s.rooms rid with
      | none => (s, [])
      | some ms =>
          let ms1 := ms.filter fun x => x ≠ cid
          let s1 : ServerState := { s with rooms := setRoomMembers s.rooms rid ms1 }
          let evs := broadcastToRoom s1 rid cid (.userLeft cid rid ms1)
          let s2 : ServerState :=
            if ms1 = [] then { s1 with rooms := deleteRoom s1.rooms rid } else s1
          (⟨s2.rooms, updateConn s2.conns cid fun c => { c with room := none }⟩, evs)

/-- Model of `handleOffer(ws, message)`: `!roomId || !rooms.has(roomId)` replies
`error "Room not found"`; otherwise forwards the offer with `from` set. -/
def handleOffer (s : ServerState) (cid : String) (rid : String)
    (payload : String) : ServerState × Events :=
  if rid = "" then (s, sendToClient s cid (.error "Room not found"))
  else
    match lookupRoom s.rooms rid with
    | none => (s, sendToClient s cid (.error "Room not found"))
    | some _ => (s, broadcastToRoom s rid cid (.offer payload cid rid))

/-- Model of `handleAnswer(ws, message)`. -/
def handleAnswer (s : ServerState) (cid : String) (rid : String)
    (payload : String) : ServerState × Events :=
  if rid = "" then (s, sendToClient s cid (.error "Room not found"))
  else
    match lookupRoom s.rooms rid with
    | none => (s, sendToClient s cid (.error "Room not found"))
    | some _ => (s, broadcastToRoom s rid cid (.answer payload cid rid))

/-- Model of `handleIceCandidate(ws, message)`. -/
def handleIceCandidate (s : ServerState) (cid : String) (rid : String)
    (payload : String) : ServerState × Events :=
  if rid = "" then (s, sendToClient s cid (.error "Room not found"))
  else
    match lookupRoom s.rooms rid with
    | none => (s, sendToClient s cid (.error "Room not found"))
    | some _ => (s, broadcastToRoom s rid cid (.iceCandidate payload cid rid))

/-- Model of `handleClientMessage(ws, message)`: the dispatch `switch`. -/
def handleClientMessage (s : ServerState) (cid : String) (m : ClientMsg) :
    ServerState × Events :=
  match m with
  | .createRoom rid => handleCreateRoom s cid rid
  | .joinRoom rid => handleJoinRoom s cid rid
  | .leaveRoom mrid => handleLeaveRoom s cid mrid
  | .offer rid p => handleOffer s cid rid p
  | .answer rid p => handleAnswer s cid rid p
  | .iceCandidate rid p => handleIceCandidate s cid rid p
  | .ping => (s, sendToClient s cid .pong)
  | .unknown t => (s, sendToClient s cid (.error ("Unknown message type: " ++ t)))

/-- Model of `handleClientDisconnection(ws)`: `if (ws.roomId)` (truthy) then
`handleLeaveRoom(ws, { roomId: ws.roomId })`. -/
def handleClientDisconnection (s : ServerState) (cid : String) :
    ServerState × Events :=
  match (getConn s.conns cid).bind Conn.room with
  | none => (s, [])
  | some rid => if rid = "" then (s, []) else handleLeaveRoom s cid (some rid)

/-- External events driving the server: a new connection being accepted
(with the fresh id `generateId()` produced for it), an inbound parsed
message from a connected client, and a socket `close` event (which marks
the socket no longer `OPEN` and runs `handleClientDisconnection`). -/
inductive Op where
  | connect (cid : String)
  | msg (cid : String) (m : ClientMsg)
  | close (cid : String)
deriving DecidableEq, Repr

/-- One step of the server's event loop. -/
def stepOp (s : ServerState) (op : Op) : ServerState × Events :=
  match op with
  | .connect cid =>
      (⟨s.rooms, s.conns ++ [⟨cid, none, true⟩]⟩, [(cid, .connected cid)])
  | .msg cid m => handleClientMessage s cid m
  | .close cid =>
      let s1 : ServerState :=
        ⟨s.rooms, updateConn s.conns cid fun c => { c with isOpen := false }⟩
      handleClientDisconnection s1 cid

/-- The server starts with no rooms and no connections. -/
def initState : ServerState := ⟨[], []⟩

/-- The state after a sequence of external events. -/
def runOps (ops : List Op) : ServerState :=
  ops.foldl (fun s op => (stepOp s op).fst) initState

/-- The spec's membership-symmetry invariant: a client id is in a room's
participant list iff that client's `roomId` field names that room. -/
def membershipSym (s : ServerState) : Prop :=
  ∀ c ∈ s.conns, ∀ p ∈ s.rooms, (c.id ∈ p.2 ↔ c.room = some p.1)

instance (s : ServerState) : Decidable (membershipSym s) := by
  unfold membershipSym; infer_instance

/-- The spec's empty-room invariant: no registered room has an empty
participant list. -/
def roomsNonempty (s : ServerState) : Prop :=
  ∀ p ∈ s.rooms, p.2 ≠ []

instance (s : ServerState) : Decidable (roomsNonempty s) := by
  unfold roomsNonempty; infer_instance

/-- The message kinds the server only ever emits through
`broadcastToRoom` (as opposed to direct replies to the sender). -/
def isBroadcast : ServerMsg → Bool
  | .userJoined _ _ _ => true
  | .userLeft _ _ _ => true
  | .offer _ _ _ => true
  | .answer _ _ _ => true
  | .iceCandidate _ _ _ => true
  | _ => false

/-! Basic lemmas about the registry and connection-list primitives. -/

theorem lookupRoom_append_none (rs : List (String × List String)) (rid : String)
    (ms : List String) (h : lookupRoom rs rid = none) :
    lookupRoom (rs ++ [(rid, ms)]) rid = some ms := by
  induction rs with
  | nil => simp [lookupRoom]
  | cons p rest ih =>
      obtain ⟨k, v⟩ := p
      by_cases hk : k = rid
      · simp only [lookupRoom, if_pos hk] at h
        exact absurd h (by simp)
      · simp only [lookupRoom, if_neg hk] at h
        simp only [List.cons_append, lookupRoom, if_neg hk]
        exact ih h

theorem lookupRoom_setRoomMembers (rs : List (String × List String))
    (rid : String) (ms ms1 : List String) (h : lookupRoom rs rid = some ms) :
    lookupRoom (setRoomMembers rs rid ms1) rid = some ms1 := by
  induction rs with
  | nil => simp [lookupRoom] at h
  | cons p rest ih =>
      obtain ⟨k, v⟩ := p
      rw [setRoomMembers]
      by_cases hk : k = rid
      · subst hk
        rw [if_pos rfl, lookupRoom, if_pos rfl]
      · rw [lookupRoom, if_neg hk] at h
        rw [if_neg hk, lookupRoom, if_neg hk]
        exact ih h

theorem lookupRoom_deleteRoom (rs : List (String × List String)) (rid : String) :
    lookupRoom (deleteRoom rs rid) rid = none := by
  induction rs with
  | nil => simp [deleteRoom, lookupRoom]
  | cons p rest ih =>
      obtain ⟨k, v⟩ := p
      by_cases hk : k = rid
      · subst hk
        simp [deleteRoom]
        exact ih
      · simp [deleteRoom, lookupRoom, hk]
        exact ih

theorem mem_setRoomMembers {p : String × List String}
    {rs : List (String × List String)} {rid : String} {ms : List String}
    (h : p ∈ setRoomMembers rs rid ms) : (p.1 = rid ∧ p.2 = ms) ∨ p ∈ rs := by
  induction rs with
  | nil => simp [setRoomMembers] at h
  | cons q rest ih =>
      obtain ⟨k, v⟩ := q
      by_cases hk : k = rid
      · simp only [setRoomMembers, if_pos hk, List.mem_cons] at h
        rcases h with h | h
        · left
          rw [h]
          exact ⟨hk, rfl⟩
        · rcases ih h with h2 | h2
          · exact Or.inl h2
          · exact Or.inr (List.mem_cons_of_mem _ h2)
      · simp only [setRoomMembers, if_neg hk, List.mem_cons] at h
        rcases h with h | h
        · right
          rw [h]
          exact List.mem_cons_self _ _
        · rcases ih h with h2 | h2
          · exact Or.inl h2
          · exact Or.inr (List.mem_cons_of_mem _ h2)

theorem mem_deleteRoom {p : String × List String}
    {rs : List (String × List String)} {rid : String}
    (h : p ∈ deleteRoom rs rid) : p ∈ rs ∧ p.1 ≠ rid := by
  induction rs with
  | nil => simp [deleteRoom] at h
  | cons q rest ih =>
      obtain ⟨k, v⟩ := q
      by_cases hk : k = rid
      · simp only [deleteRoom, if_pos hk] at h
        rcases ih h with ⟨h1, h2⟩
        exact ⟨List.mem_cons_of_mem _ h1, h2⟩
      · simp only [deleteRoom, if_neg hk, List.mem_cons] at h
        rcases h with h | h
        · refine ⟨by rw [h]; exact List.mem_cons_self _ _, ?_⟩
          rw [h]
          exact hk
        · rcases ih h with ⟨h1, h2⟩
          exact ⟨List.mem_cons_of_mem _ h1, h2⟩

theorem getConn_updateConn (l : List Conn) (cid : String) (f : Conn → Conn)
    (hf : ∀ c, (f c).id = c.id) :
    getConn (updateConn l cid f) cid = (getConn l cid).map f := by
  induction l with
  | nil => rfl
  | cons c rest ih =>
      by_cases hc : c.id = cid
      · subst hc
        simp [updateConn, getConn, hf]
      · simp [updateConn, getConn, hc, hf]
        exact ih

theorem mem_sendToClient {s : ServerState} {cid : String} {m : ServerMsg}
    {e : String × ServerMsg} (h : e ∈ sendToClient s cid m) : e = (cid, m) := by
  unfold sendToClient at h
  cases hg : getConn s.conns cid with
  | none => rw [hg] at h; simp at h
  | some c =>
      rw [hg] at h
      by_cases ho : c.isOpen = true
      · simp [ho] at h
        exact h
      · simp [ho] at h

theorem mem_broadcastToRoom {s : ServerState} {rid sid : String}
    {m : ServerMsg} {e : String × ServerMsg}
    (h : e ∈ broadcastToRoom s rid sid m) : e.1 ≠ sid ∧ e.2 = m := by
  unfold broadcastToRoom at h
  cases hl : lookupRoom s.rooms rid with
  | none => rw [hl] at h; simp at h
  | some ms =>
      rw [hl] at h
      rw [List.mem_filterMap] at h
      obtain ⟨a, ha, hfa⟩ := h
      cases hg : getConn s.conns a with
      | none => rw [hg] at hfa; simp at hfa
      | some c =>
          rw [hg] at hfa
          by_cases hs : a = sid
          · simp [hs] at hfa
          · by_cases ho : c.isOpen = true
            · simp [hs, ho] at hfa
              subst hfa
              exact ⟨hs, rfl⟩
            · simp [hs, ho] at hfa

theorem mem_broadcastToRoom_of {s : ServerState} {rid sid x : String}
    {m : ServerMsg} {c : Conn} {ms : List String}
    (hl : lookupRoom s.rooms rid = some ms) (hx : x ∈ ms) (hxs : x ≠ sid)
    (hg : getConn s.conns x = some c) (ho : c.isOpen = true) :
    (x, m) ∈ broadcastToRoom s rid sid m := by
  unfold broadcastToRoom
  rw [hl, List.mem_filterMap]
  exact ⟨x, hx, by rw [hg]; simp [hxs, ho]⟩

/-! Events that are safe for a given sender: every broadcast-kind message
among them goes to somebody else. -/

/-- Among the events `evs`, every message of a broadcast kind is addressed
to a connection other than `cid`. -/
def okFor (cid : String) (evs : Events) : Prop :=
  ∀ e ∈ evs, isBroadcast e.2 = true → e.1 ≠ cid

theorem okFor_nil (cid : String) : okFor cid [] := by
  intro e he
  exact absurd he (List.not_mem_nil e)

theorem okFor_append {cid : String} {a b : Events}
    (ha : okFor cid a) (hb : okFor cid b) : okFor cid (a ++ b) := by
  intro e he hbe
  rcases List.mem_append.1 he with h | h
  · exact ha e h hbe
  · exact hb e h hbe

theorem okFor_send {cid0 : String} {s : ServerState} {cid : String}
    {m : ServerMsg} (h : isBroadcast m = false) :
    okFor cid0 (sendToClient s cid m) := by
  intro e he hbe
  rw [mem_sendToClient he] at hbe
  simp [h] at hbe

theorem okFor_broadcast {s : ServerState} {rid cid : String} {m : ServerMsg} :
    okFor cid (broadcastToRoom s rid cid m) :=
  fun _ he _ => (mem_broadcastToRoom he).1

theorem okFor_handleCreateRoom (s : ServerState) (cid rid : String) :
    okFor cid (handleCreateRoom s cid rid).snd := by
  unfold handleCreateRoom
  split
  · exact okFor_send rfl
  · split
    · exact okFor_send rfl
    · exact okFor_send rfl

theorem okFor_handleJoinRoom (s : ServerState) (cid rid : String) :
    okFor cid (handleJoinRoom s cid rid).snd := by
  unfold handleJoinRoom
  split
  · exact okFor_send rfl
  · split
    · exact okFor_send rfl
    · exact okFor_append (okFor_send rfl) okFor_broadcast

theorem okFor_handleLeaveRoom (s : ServerState) (cid : String)
    (mrid : Option String) : okFor cid (handleLeaveRoom s cid mrid).snd := by
  unfold handleLeaveRoom
  split
  · exact okFor_nil cid
  · split
    · exact okFor_nil cid
    · exact okFor_broadcast

theorem okFor_handleOffer (s : ServerState) (cid rid p : String) :
    okFor cid (handleOffer s cid rid p).snd := by
  unfold handleOffer
  split
  · exact okFor_send rfl
  · split
    · exact okFor_send rfl
    · exact okFor_broadcast

theorem okFor_handleAnswer (s : ServerState) (cid rid p : String) :
    okFor cid (handleAnswer s cid rid p).snd := by
  unfold handleAnswer
  split
  · exact okFor_send rfl
  · split
    · exact okFor_send rfl
    · exact okFor_broadcast

theorem okFor_handleIceCandidate (s : ServerState) (cid rid p : String) :
    okFor cid (handleIceCandidate s cid rid p).snd := by
  unfold handleIceCandidate
  split
  · exact okFor_send rfl
  · split
    · exact okFor_send rfl
    · exact okFor_broadcast

theorem okFor_handleClientMessage (s : ServerState) (cid : String)
    (m : ClientMsg) : okFor cid (handleClientMessage s cid m).snd := by
  cases m with
  | createRoom rid => exact okFor_handleCreateRoom s cid rid
  | joinRoom rid => exact okFor_handleJoinRoom s cid rid
  | leaveRoom mrid => exact okFor_handleLeaveRoom s cid mrid
  | offer rid p => exact okFor_handleOffer s cid rid p
  | answer rid p => exact okFor_handleAnswer s cid rid p
  | iceCandidate rid p => exact okFor_handleIceCandidate s cid rid p
  | ping => exact okFor_send rfl
  | unknown t => exact okFor_send rfl

theorem okFor_handleClientDisconnection (s : ServerState) (cid : String) :
    okFor cid (handleClientDisconnection s cid).snd := by
  unfold handleClientDisconnection
  split
  · exact okFor_nil cid
  · split
    · exact okFor_nil cid
    · exact okFor_handleLeaveRoom s cid _

/-! Preservation of the no-empty-room invariant by every operation. -/

theorem roomsNonempty_handleCreateRoom (s : ServerState) (cid rid : String)
    (h : roomsNonempty s) : roomsNonempty (handleCreateRoom s cid rid).fst := by
  unfold handleCreateRoom
  split
  · exact h
  · split
    · exact h
    · intro p hp
      rcases List.mem_append.1 hp with h1 | h1
      · exact h p h1
      · simp only [List.mem_singleton] at h1
        rw [h1]
        simp

theorem roomsNonempty_handleJoinRoom (s : ServerState) (cid rid : String)
    (h : roomsNonempty s) : roomsNonempty (handleJoinRoom s cid rid).fst := by
  unfold handleJoinRoom
  split
  · exact h
  · split
    · exact h
    · rename_i ms _
      intro p hp
      rcases mem_setRoomMembers hp with ⟨_, h4⟩ | h3
      · rw [h4]
        by_cases hmem : cid ∈ ms
        · rw [if_pos hmem]
          exact List.ne_nil_of_mem hmem
        · rw [if_neg hmem]
          simp
      · exact h p h3

theorem roomsNonempty_handleLeaveRoom (s : ServerState) (cid : String)
    (mrid : Option String) (h : roomsNonempty s) :
    roomsNonempty (handleLeaveRoom s cid mrid).fst := by
  unfold handleLeaveRoom
  split
  · exact h
  · split
    · exact h
    · dsimp only
      split
      · intro p hp
        have h2 := mem_deleteRoom hp
        rcases mem_setRoomMembers h2.1 with ⟨h3, _⟩ | h3
        · exact absurd h3 h2.2
        · exact h p h3
      · rename_i hne
        intro p hp
        rcases mem_setRoomMembers hp with ⟨_, h4⟩ | h3
        · rw [h4]
          exact hne
        · exact h p h3

theorem roomsNonempty_handleClientMessage (s : ServerState) (cid : String)
    (m : ClientMsg) (h : roomsNonempty s) :
    roomsNonempty (handleClientMessage s cid m).fst := by
  cases m with
  | createRoom rid => exact roomsNonempty_handleCreateRoom s cid rid h
  | joinRoom rid => exact roomsNonempty_handleJoinRoom s cid rid h
  | leaveRoom mrid => exact roomsNonempty_handleLeaveRoom s cid mrid h
  | offer rid p =>
      show roomsNonempty (handleOffer s cid rid p).fst
      unfold handleOffer
      split
      · exact h
      · split
        · exact h
        · exact h
  | answer rid p =>
      show roomsNonempty (handleAnswer s cid rid p).fst
      unfold handleAnswer
      split
      · exact h
      · split
        · exact h
        · exact h
  | iceCandidate rid p =>
      show roomsNonempty (handleIceCandidate s cid rid p).fst
      unfold handleIceCandidate
      split
      · exact h
      · split
        · exact h
        · exact h
  | ping => exact h
  | unknown t => exact h

theorem roomsNonempty_handleClientDisconnection (s : ServerState)
    (cid : String) (h : roomsNonempty s) :
    roomsNonempty (handleClientDisconnection s cid).fst := by
  unfold handleClientDisconnection
  split
  · exact h
  · split
    · exact h
    · exact roomsNonempty_handleLeaveRoom s cid _ h

theorem roomsNonempty_stepOp (s : ServerState) (op : Op)
    (h : roomsNonempty s) : roomsNonempty (stepOp s op).fst := by
  cases op with
  | connect cid => exact h
  | msg cid m => exact roomsNonempty_handleClientMessage s cid m h
  | close cid =>
      exact roomsNonempty_handleClientDisconnection
        ⟨s.rooms, updateConn s.conns cid fun c => { c with isOpen := false }⟩ cid h

theorem roomsNonempty_foldl (ops : List Op) :
    ∀ s : ServerState, roomsNonempty s →
      roomsNonempty (ops.foldl (fun s op => (stepOp s op).fst) s) := by
  induction ops with
  | nil => exact fun s h => h
  | cons op rest ih =>
      intro s h
      exact ih ((stepOp s op).fst) (roomsNonempty_stepOp s op h)

theorem roomsNonempty_runOps (ops : List Op) : roomsNonempty (runOps ops) :=
  roomsNonempty_foldl ops initState (by intro p hp; simp [initState] at hp)

/-! Cleanup idempotence machinery. -/

/-- After a `handleLeaveRoom` that did anything, the acting connection's
`roomId` field is `null`; otherwise the call was the identity with no
events. -/
theorem handleLeaveRoom_post (s : ServerState) (cid : String)
    (mrid : Option String) :
    handleLeaveRoom s cid mrid = (s, []) ∨
      (getConn ((handleLeaveRoom s cid mrid).fst).conns cid).bind Conn.room
        = none := by
  unfold handleLeaveRoom
  split
  · exact Or.inl rfl
  · split
    · exact Or.inl rfl
    · right
      dsimp only
      have hconns : ∀ t : ServerState,
          getConn (updateConn t.conns cid fun c => { c with room := none }) cid
            = (getConn t.conns cid).map fun c => { c with room := none } :=
        fun t => getConn_updateConn t.conns cid _ (fun _ => rfl)
      split
      · rw [hconns]
        cases getConn s.conns cid with
        | none => rfl
        | some c => rfl
      · rw [hconns]
        cases getConn s.conns cid with
        | none => rfl
        | some c => rfl

/-! Concrete example states used to evaluate the theorems. -/

/-- A state with one room `"A"` whose only participant is `"x"`, plus a
second open connection `"c"` that is in no room. -/
def sGhost : ServerState :=
  ⟨[("A", ["x"])], [⟨"x", some "A", true⟩, ⟨"c", none, true⟩]⟩

/-- A state with one room `"R"` whose sole member `"x"` is about to leave. -/
def sSolo : ServerState := ⟨[("R", ["x"])], [⟨"x", some "R", true⟩]⟩

/-- A state with no rooms and a single roomless open connection `"c"`. -/
def sEmpty : ServerState := ⟨[], [⟨"c", none, true⟩]⟩

/-- Connections `a` and `b` each create a room, then `a` joins `b`'s room
without leaving its own. -/
def opsC1 : List Op :=
  [Op.connect "a", Op.connect "b",
   Op.msg "a" (ClientMsg.createRoom "A"),
   Op.msg "b" (ClientMsg.createRoom "B"),
   Op.msg "a" (ClientMsg.joinRoom "B")]

/-! Claim theorems. -/

/-- C1: membership symmetry fails on the code.  After `a` creates room
`"A"`, `b` creates room `"B"`, and `a` joins `"B"`, the id `"a"` is still
in `"A"`'s participant list while `a`'s room field is `"B"`: joining a
second room does not remove the connection from the first, so the claimed
invariant is violated by this operation sequence. -/
theorem membership_symmetry_violated :
    ¬ membershipSym (runOps opsC1) ∧
    "a" ∈ (lookupRoom (runOps opsC1).rooms "A").getD [] ∧
    (getConn (runOps opsC1).conns "a").bind Conn.room = some "B" := by
  decide

/-- C9: disconnect cleanup is idempotent.  When the disconnecting
connection has a room recorded, `handleClientDisconnection` is exactly the
single `handleLeaveRoom` call of an ordinary leave, and running
`handleClientDisconnection` a second time on the resulting state changes
nothing and emits no events. -/
theorem idempotent_cleanup (s : ServerState) (cid : String) :
    (∀ rid, (getConn s.conns cid).bind Conn.room = some rid → rid ≠ "" →
        handleClientDisconnection s cid = handleLeaveRoom s cid (some rid)) ∧
    handleClientDisconnection ((handleClientDisconnection s cid).fst) cid
      = ((handleClientDisconnection s cid).fst, []) := by
  constructor
  · intro rid hg hrid
    unfold handleClientDisconnection
    rw [hg]
    show (if rid = "" then (s, []) else handleLeaveRoom s cid (some rid)) = _
    rw [if_neg hrid]
  · cases hg : (getConn s.conns cid).bind Conn.room with
    | none =>
        have h1 : handleClientDisconnection s cid = (s, []) := by
          unfold handleClientDisconnection
          rw [hg]
        rw [h1]
        exact h1
    | some rid =>
        by_cases hrid : rid = ""
        · have h1 : handleClientDisconnection s cid = (s, []) := by
            unfold handleClientDisconnection
            rw [hg]
            show (if rid = "" then (s, []) else handleLeaveRoom s cid (some rid)) = _
            rw [if_pos hrid]
          rw [h1]
          exact h1
        · have h1 : handleClientDisconnection s cid
              = handleLeaveRoom s cid (some rid) := by
            unfold handleClientDisconnection
            rw [hg]
            show (if rid = "" then (s, []) else handleLeaveRoom s cid (some rid)) = _
            rw [if_neg hrid]
          rcases handleLeaveRoom_post s cid (some rid) with h2 | h2
          · rw [h1, h2]
            exact h1.trans h2
          · have h3 : handleClientDisconnection
                ((handleLeaveRoom s cid (some rid)).fst) cid
                = ((handleLeaveRoom s cid (some rid)).fst, []) := by
              unfold handleClientDisconnection
              rw [h2]
            rw [h1]
            exact h3

/-- Witness for C9 at a concrete state: `x` is the sole member of room
`"A"` in `sGhost`. -/
theorem idempotent_cleanup_witness :
    handleClientDisconnection sGhost "x" = handleLeaveRoom sGhost "x" (some "A") ∧
    handleClientDisconnection ((handleClientDisconnection sGhost "x").fst) "x"
      = ((handleClientDisconnection sGhost "x").fst, []) := by
  have h := idempotent_cleanup sGhost "x"
  exact ⟨h.1 "A" (by decide) (by decide), h.2⟩

/-- C10: an inbound `ping` from an open connection is answered with a
`pong` to that sender and the state is unchanged. -/
theorem ping_pong (s : ServerState) (cid : String) (c : Conn)
    (hc : getConn s.conns cid = some c) (hopen : c.isOpen = true) :
    handleClientMessage s cid ClientMsg.ping = (s, [(cid, ServerMsg.pong)]) := by
  unfold handleClientMessage sendToClient
  rw [hc]
  simp [hopen]

/-- Witness for C10 at a concrete state. -/
theorem ping_pong_witness :
    handleClientMessage sEmpty "c" ClientMsg.ping
      = (sEmpty, [("c", ServerMsg.pong)]) :=
  ping_pong sEmpty "c" ⟨"c", none, true⟩ (by decide) (by decide)

/-- C3: `create-room` with a missing/empty `roomId` replies an `error`
envelope to the sender and changes nothing; `create-room` for an existing
`roomId` replies an `error` envelope and leaves the registry and the
sender's room field unchanged (the returned state is exactly `s`). -/
theorem create_room_error_replies (s : ServerState) (cid : String) (c : Conn)
    (hc : getConn s.conns cid = some c) (hopen : c.isOpen = true) :
    handleCreateRoom s cid ""
      = (s, [(cid, ServerMsg.error "Room ID is required")]) ∧
    ∀ rid ms, rid ≠ "" → lookupRoom s.rooms rid = some ms →
      handleCreateRoom s cid rid
        = (s, [(cid, ServerMsg.error "Room already exists")]) := by
  have hsend : ∀ m : ServerMsg, sendToClient s cid m = [(cid, m)] := by
    intro m
    unfold sendToClient
    rw [hc]
    simp [hopen]
  constructor
  · have h1 : handleCreateRoom s cid ""
        = (s, sendToClient s cid (.error "Room ID is required")) := by
      unfold handleCreateRoom
      rw [if_pos rfl]
    rw [h1, hsend]
  · intro rid ms hrid hlk
    have h1 : handleCreateRoom s cid rid
        = (s, sendToClient s cid (.error "Room already exists")) := by
      unfold handleCreateRoom
      rw [if_neg hrid, hlk]
    rw [h1, hsend]

/-- Witness for C3 at a concrete state: empty `roomId`, and the already
existing room `"A"` of `sGhost`. -/
theorem create_room_error_replies_witness :
    handleCreateRoom sGhost "c" ""
      = (sGhost, [("c", ServerMsg.error "Room ID is required")]) ∧
    handleCreateRoom sGhost "c" "A"
      = (sGhost, [("c", ServerMsg.error "Room already exists")]) := by
  have h := create_room_error_replies sGhost "c" ⟨"c", none, true⟩
    (by decide) (by decide)
  exact ⟨h.1, h.2 "A" ["x"] (by decide) (by decide)⟩

/-- C4: a `create-room` with a fresh non-empty `roomId` appends the room
with the sender as sole participant, records the room on the sender's
handle, and replies `room-created` with the one-element participant list
to the sender only — the event list is exactly that single reply. -/
theorem create_room_success (s : ServerState) (cid rid : String) (c : Conn)
    (hrid : rid ≠ "") (habs : lookupRoom s.rooms rid = none)
    (hc : getConn s.conns cid = some c) (hopen : c.isOpen = true) :
    (handleCreateRoom s cid rid).fst.rooms = s.rooms ++ [(rid, [cid])] ∧
    lookupRoom (handleCreateRoom s cid rid).fst.rooms rid = some [cid] ∧
    getConn (handleCreateRoom s cid rid).fst.conns cid
      = some { c with room := some rid } ∧
    (handleCreateRoom s cid rid).snd
      = [(cid, ServerMsg.roomCreated rid [cid])] := by
  have hgc : getConn (updateConn s.conns cid fun c2 => { c2 with room := some rid }) cid
      = some { c with room := some rid } := by
    rw [getConn_updateConn s.conns cid
          (fun c2 => { c2 with room := some rid }) (fun _ => rfl), hc]
    rfl
  have hstep : handleCreateRoom s cid rid =
      ({ rooms := s.rooms ++ [(rid, [cid])],
         conns := updateConn s.conns cid fun c2 => { c2 with room := some rid } },
       sendToClient
         { rooms := s.rooms ++ [(rid, [cid])],
           conns := updateConn s.conns cid fun c2 => { c2 with room := some rid } }
         cid (.roomCreated rid [cid])) := by
    unfold handleCreateRoom
    rw [if_neg hrid, habs]
  refine ⟨?_, ?_, ?_, ?_⟩
  · rw [hstep]
  · rw [hstep]
    exact lookupRoom_append_none s.rooms rid [cid] habs
  · rw [hstep]
    exact hgc
  · rw [hstep]
    show sendToClient _ cid _ = _
    unfold sendToClient
    rw [hgc]
    simp [hopen]

/-- Witness for C4 at a concrete state: `"c"` creates `"Z"` in the empty
registry. -/
theorem create_room_success_witness :
    (handleCreateRoom sEmpty "c" "Z").fst.rooms = [("Z", ["c"])] ∧
    (handleCreateRoom sEmpty "c" "Z").snd
      = [("c", ServerMsg.roomCreated "Z" ["c"])] := by
  have h := create_room_success sEmpty "c" "Z" ⟨"c", none, true⟩
    (by decide) (by decide) (by decide) (by decide)
  exact ⟨h.1.trans (by decide), h.2.2.2⟩

/-- C5: no self-broadcast.  In the event list produced by dispatching any
client message of connection `cid` — and likewise by its disconnect
cleanup — every message of a broadcast kind (`user-joined`, `user-left`,
relayed `offer`/`answer`/`ice-candidate`) is addressed to some connection
other than `cid`. -/
theorem no_self_broadcast (s : ServerState) (cid : String) (m : ClientMsg) :
    (∀ e ∈ (handleClientMessage s cid m).snd,
        isBroadcast e.2 = true → e.1 ≠ cid) ∧
    (∀ e ∈ (handleClientDisconnection s cid).snd,
        isBroadcast e.2 = true → e.1 ≠ cid) :=
  ⟨okFor_handleClientMessage s cid m, okFor_handleClientDisconnection s cid⟩

/-- Witness for C5 at a concrete state: `"c"` joining room `"A"` of
`sGhost` produces a `user-joined` broadcast event addressed to `"x"`,
not to `"c"`. -/
theorem no_self_broadcast_witness :
    ("x", ServerMsg.userJoined "c" "A" ["x", "c"])
      ∈ (handleClientMessage sGhost "c" (ClientMsg.joinRoom "A")).snd ∧
    ("x" : String) ≠ "c" :=
  ⟨by decide,
   (no_self_broadcast sGhost "c" (ClientMsg.joinRoom "A")).1
     ("x", ServerMsg.userJoined "c" "A" ["x", "c"]) (by decide) (by decide)⟩

/-- Reduction of `handleLeaveRoom` once the resolved room id is known. -/
theorem handleLeaveRoom_eq (s : ServerState) (cid : String)
    (mrid : Option String) (rid : String)
    (hres : resolveLeaveRoom mrid ((getConn s.conns cid).bind Conn.room)
      = some rid) :
    handleLeaveRoom s cid mrid =
      match lookupRoom s.rooms rid with
      | none => (s, [])
      | some ms =>
          let ms1 := ms.filter fun x => x ≠ cid
          let s1 : ServerState := { s with rooms := setRoomMembers s.rooms rid ms1 }
          let evs := broadcastToRoom s1 rid cid (.userLeft cid rid ms1)
          let s2 : ServerState :=
            if ms1 = [] then { s1 with rooms := deleteRoom s1.rooms rid } else s1
          (⟨s2.rooms, updateConn s2.conns cid fun c => { c with room := none }⟩,
            evs) := by
  unfold handleLeaveRoom
  rw [hres]

/-- C6, counterexample: `leave-room` is not a no-op for a non-member.  In
`sGhost` the connection `"c"` is not a member of room `"A"` (and has no
current room), yet `leave-room {roomId: "A"}` from `"c"` broadcasts a
`user-left` for `"c"` to the member `"x"` — the claimed complete no-op
fails. -/
theorem leave_room_counterexample :
    "c" ∉ (lookupRoom sGhost.rooms "A").getD [] ∧
    (getConn sGhost.conns "c").bind Conn.room = none ∧
    (handleLeaveRoom sGhost "c" (some "A")).snd
      = [("x", ServerMsg.userLeft "c" "A" ["x"])] := by
  decide

/-- C6, amended: the room to leave is the message `roomId` if truthy, else
the connection's current room; the operation is a no-op exactly when that
resolution fails or the resolved id is not in the registry — membership is
not checked.  When the room exists, the sender's id is removed from it
(the room being deleted if now empty), `user-left` naming the sender is
broadcast to the remaining open members even if the sender was not a
member, and the sender's room field is cleared unconditionally. -/
theorem leave_room_behavior (s : ServerState) (cid : String)
    (mrid : Option String) :
    (resolveLeaveRoom mrid ((getConn s.conns cid).bind Conn.room) = none →
        handleLeaveRoom s cid mrid = (s, [])) ∧
    (∀ rid, resolveLeaveRoom mrid ((getConn s.conns cid).bind Conn.room)
          = some rid →
        lookupRoom s.rooms rid = none → handleLeaveRoom s cid mrid = (s, [])) ∧
    (∀ rid ms, resolveLeaveRoom mrid ((getConn s.conns cid).bind Conn.room)
          = some rid →
        lookupRoom s.rooms rid = some ms →
        lookupRoom ((handleLeaveRoom s cid mrid).fst).rooms rid =
          (if ms.filter (fun x => x ≠ cid) = [] then none
           else some (ms.filter (fun x => x ≠ cid))) ∧
        getConn ((handleLeaveRoom s cid mrid).fst).conns cid =
          (getConn s.conns cid).map (fun c => { c with room := none }) ∧
        ∀ x c, x ∈ ms → x ≠ cid → getConn s.conns x = some c →
          c.isOpen = true →
          (x, ServerMsg.userLeft cid rid (ms.filter (fun y => y ≠ cid)))
            ∈ (handleLeaveRoom s cid mrid).snd) := by
  refine ⟨?_, ?_, ?_⟩
  · intro hres
    unfold handleLeaveRoom
    rw [hres]
  · intro rid hres hlk
    rw [handleLeaveRoom_eq s cid mrid rid hres, hlk]
  · intro rid ms hres hlk
    refine ⟨?_, ?_, ?_⟩
    · rw [handleLeaveRoom_eq s cid mrid rid hres, hlk]
      dsimp only
      by_cases hnil : ms.filter (fun x => x ≠ cid) = []
      · simp only [if_pos hnil]
        exact lookupRoom_deleteRoom _ rid
      · simp only [if_neg hnil]
        exact lookupRoom_setRoomMembers s.rooms rid ms _ hlk
    · rw [handleLeaveRoom_eq s cid mrid rid hres, hlk]
      dsimp only
      have hg := getConn_updateConn s.conns cid
        (fun c => { c with room := none }) (fun _ => rfl)
      split
      · exact hg
      · exact hg
    · intro x c hx hxc hgx ho
      rw [handleLeaveRoom_eq s cid mrid rid hres, hlk]
      dsimp only
      exact mem_broadcastToRoom_of
        (lookupRoom_setRoomMembers s.rooms rid ms _ hlk)
        (List.mem_filter.2 ⟨hx, decide_eq_true hxc⟩) hxc hgx ho

/-- Witness for C6's amended theorem at a concrete state: `"c"` (not a
member) sends `leave-room {roomId: "A"}` in `sGhost`; room `"A"` keeps
its member `"x"` and `"x"` receives the `user-left` broadcast. -/
theorem leave_room_behavior_witness :
    lookupRoom ((handleLeaveRoom sGhost "c" (some "A")).fst).rooms "A"
      = some ["x"] ∧
    ("x", ServerMsg.userLeft "c" "A" ["x"])
      ∈ (handleLeaveRoom sGhost "c" (some "A")).snd := by
  have h := (leave_room_behavior sGhost "c" (some "A")).2.2 "A" ["x"]
    (by decide) (by decide)
  exact ⟨h.1.trans (by decide),
         h.2.2 "x" ⟨"x", some "A", true⟩ (by decide) (by decide)
           (by decide) (by decide)⟩

/-- C7: relay opacity.  For an `offer`/`answer`/`ice-candidate` naming an
existing room, every delivered envelope carries exactly the payload the
sender sent, with the `from` field set to the sender's identity. -/
theorem relay_opacity (s : ServerState) (cid rid p : String)
    (ms : List String) (hrid : rid ≠ "")
    (hlk : lookupRoom s.rooms rid = some ms) :
    (∀ e ∈ (handleOffer s cid rid p).snd, e.2 = ServerMsg.offer p cid rid) ∧
    (∀ e ∈ (handleAnswer s cid rid p).snd, e.2 = ServerMsg.answer p cid rid) ∧
    (∀ e ∈ (handleIceCandidate s cid rid p).snd,
        e.2 = ServerMsg.iceCandidate p cid rid) := by
  have h1 : handleOffer s cid rid p
      = (s, broadcastToRoom s rid cid (.offer p cid rid)) := by
    unfold handleOffer
    rw [if_neg hrid, hlk]
  have h2 : handleAnswer s cid rid p
      = (s, broadcastToRoom s rid cid (.answer p cid rid)) := by
    unfold handleAnswer
    rw [if_neg hrid, hlk]
  have h3 : handleIceCandidate s cid rid p
      = (s, broadcastToRoom s rid cid (.iceCandidate p cid rid)) := by
    unfold handleIceCandidate
    rw [if_neg hrid, hlk]
  refine ⟨?_, ?_, ?_⟩
  · intro e he
    rw [h1] at he
    exact (mem_broadcastToRoom he).2
  · intro e he
    rw [h2] at he
    exact (mem_broadcastToRoom he).2
  · intro e he
    rw [h3] at he
    exact (mem_broadcastToRoom he).2

/-- Witness for C7 at a concrete state: an offer relayed by `"c"` into
room `"A"` of `sGhost` is delivered to `"x"` with the payload intact. -/
theorem relay_opacity_witness :
    ("x", ServerMsg.offer "P" "c" "A") ∈ (handleOffer sGhost "c" "A" "P").snd ∧
    ("x", ServerMsg.offer "P" "c" "A").2 = ServerMsg.offer "P" "c" "A" :=
  ⟨by decide,
   (relay_opacity sGhost "c" "A" "P" ["x"] (by decide) (by decide)).1
     ("x", ServerMsg.offer "P" "c" "A") (by decide)⟩

/-- C8, counterexample: relaying does not require the sender to belong to
the room.  In `sGhost` the connection `"c"` is not a member of room `"A"`,
yet its `offer` naming `"A"` is relayed to the member `"x"` with no error
reply to `"c"`. -/
theorem relay_membership_counterexample :
    "c" ∉ (lookupRoom sGhost.rooms "A").getD [] ∧
    (handleOffer sGhost "c" "A" "P").snd
      = [("x", ServerMsg.offer "P" "c" "A")] := by
  decide

/-- C8, amended: the only requirement for relaying is that the room named
in the message exists in the registry (sender membership is not checked).
If the `roomId` is missing or unknown, the sender receives an `error`
envelope — the message is never silently dropped; otherwise the envelope
is broadcast to the room's other members and the state is unchanged. -/
theorem relay_room_check (s : ServerState) (cid rid p : String) :
    (∀ c : Conn, lookupRoom s.rooms rid = none → getConn s.conns cid = some c →
        c.isOpen = true →
        handleOffer s cid rid p
          = (s, [(cid, ServerMsg.error "Room not found")]) ∧
        handleAnswer s cid rid p
          = (s, [(cid, ServerMsg.error "Room not found")]) ∧
        handleIceCandidate s cid rid p
          = (s, [(cid, ServerMsg.error "Room not found")])) ∧
    (∀ ms, rid ≠ "" → lookupRoom s.rooms rid = some ms →
        handleOffer s cid rid p
          = (s, broadcastToRoom s rid cid (ServerMsg.offer p cid rid)) ∧
        handleAnswer s cid rid p
          = (s, broadcastToRoom s rid cid (ServerMsg.answer p cid rid)) ∧
        handleIceCandidate s cid rid p
          = (s, broadcastToRoom s rid cid (ServerMsg.iceCandidate p cid rid))) := by
  constructor
  · intro c hlk hc hopen
    have hsend : sendToClient s cid (ServerMsg.error "Room not found")
        = [(cid, ServerMsg.error "Room not found")] := by
      unfold sendToClient
      rw [hc]
      simp [hopen]
    by_cases hrid : rid = ""
    · refine ⟨?_, ?_, ?_⟩
      · unfold handleOffer
        rw [if_pos hrid, hsend]
      · unfold handleAnswer
        rw [if_pos hrid, hsend]
      · unfold handleIceCandidate
        rw [if_pos hrid, hsend]
    · refine ⟨?_, ?_, ?_⟩
      · unfold handleOffer
        rw [if_neg hrid, hlk, hsend]
      · unfold handleAnswer
        rw [if_neg hrid, hlk, hsend]
      · unfold handleIceCandidate
        rw [if_neg hrid, hlk, hsend]
  · intro ms hrid hlk
    refine ⟨?_, ?_, ?_⟩
    · unfold handleOffer
      rw [if_neg hrid, hlk]
    · unfold handleAnswer
      rw [if_neg hrid, hlk]
    · unfold handleIceCandidate
      rw [if_neg hrid, hlk]

/-- Witness for C8's amended theorem at concrete states: an unknown room
draws an `error` reply; the existing room `"A"` causes the relay. -/
theorem relay_room_check_witness :
    handleOffer sGhost "c" "NOPE" "P"
      = (sGhost, [("c", ServerMsg.error "Room not found")]) ∧
    handleOffer sGhost "c" "A" "P"
      = (sGhost, broadcastToRoom sGhost "A" "c" (ServerMsg.offer "P" "c" "A")) :=
  ⟨((relay_room_check sGhost "c" "NOPE" "P").1 ⟨"c", none, true⟩
      (by decide) (by decide) (by decide)).1,
   ((relay_room_check sGhost "c" "A" "P").2 ["x"] (by decide) (by decide)).1⟩

/-- C2: empty-room deletion.  After any sequence of operations from the
initial state every registered room has at least one participant; a
`leave-room` that removes the last participant deletes the room within the
same operation; and for an id absent from the registry, `join-room` replies
a room-not-found `error` without creating anything while `create-room`
succeeds with the sender as sole member. -/
theorem empty_room_deletion :
    (∀ ops : List Op, roomsNonempty (runOps ops)) ∧
    (∀ (s : ServerState) (cid rid : String) (ms : List String),
        rid ≠ "" → lookupRoom s.rooms rid = some ms →
        ms.filter (fun x => x ≠ cid) = [] →
        lookupRoom ((handleLeaveRoom s cid (some rid)).fst).rooms rid = none) ∧
    (∀ (s : ServerState) (cid rid : String) (c : Conn),
        lookupRoom s.rooms rid = none → rid ≠ "" →
        getConn s.conns cid = some c → c.isOpen = true →
        handleJoinRoom s cid rid
          = (s, [(cid, ServerMsg.error "Room does not exist")]) ∧
        lookupRoom ((handleCreateRoom s cid rid).fst).rooms rid = some [cid] ∧
        (handleCreateRoom s cid rid).snd
          = [(cid, ServerMsg.roomCreated rid [cid])]) := by
  refine ⟨roomsNonempty_runOps, ?_, ?_⟩
  · intro s cid rid ms hrid hlk hfil
    have hres : resolveLeaveRoom (some rid)
        ((getConn s.conns cid).bind Conn.room) = some rid := by
      simp [resolveLeaveRoom, hrid]
    rw [handleLeaveRoom_eq s cid (some rid) rid hres, hlk]
    dsimp only
    rw [if_pos hfil]
    exact lookupRoom_deleteRoom _ rid
  · intro s cid rid c hlk hrid hc hopen
    have hgc : getConn (updateConn s.conns cid
          fun c2 => { c2 with room := some rid }) cid
        = some { c with room := some rid } := by
      rw [getConn_updateConn s.conns cid
            (fun c2 => { c2 with room := some rid }) (fun _ => rfl), hc]
      rfl
    refine ⟨?_, ?_, ?_⟩
    · have hj : handleJoinRoom s cid rid
          = (s, sendToClient s cid (.error "Room does not exist")) := by
        unfold handleJoinRoom
        rw [if_neg hrid, hlk]
      rw [hj]
      unfold sendToClient
      rw [hc]
      simp [hopen]
    · unfold handleCreateRoom
      rw [if_neg hrid, hlk]
      dsimp only
      exact lookupRoom_append_none s.rooms rid [cid] hlk
    · unfold handleCreateRoom
      rw [if_neg hrid, hlk]
      dsimp only
      show sendToClient _ cid _ = _
      unfold sendToClient
      rw [hgc]
      simp [hopen]

/-- Witness for C2 at concrete states: `"x"` leaving `sSolo` deletes room
`"R"`; joining and creating the absent `"Z"` in `sEmpty`. -/
theorem empty_room_deletion_witness :
    lookupRoom ((handleLeaveRoom sSolo "x" (some "R")).fst).rooms "R"
      = none ∧
    (handleJoinRoom sEmpty "c" "Z"
        = (sEmpty, [("c", ServerMsg.error "Room does not exist")]) ∧
      lookupRoom ((handleCreateRoom sEmpty "c" "Z").fst).rooms "Z"
        = some ["c"] ∧
      (handleCreateRoom sEmpty "c" "Z").snd
        = [("c", ServerMsg.roomCreated "Z" ["c"])]) :=
  ⟨empty_room_deletion.2.1 sSolo "x" "R" ["x"] (by decide) (by decide)
     (by decide),
   empty_room_deletion.2.2 sEmpty "c" "Z" ⟨"c", none, true⟩ (by decide)
     (by decide) (by decide) (by decide)⟩

end VideoCall
